import Mathlib

set_option maxRecDepth 8192

/-! Verification of the Mattermost bot core of the `onyx` repository
(`backend/onyx/onyxbot/mattermost/`): registration-key parsing, command
recognition, message splitting and response placement, citation rendering,
and the team/tenant routing cache.

Python strings are modelled as `List Char`; Python dicts keyed by strings are
modelled as association lists with insert-or-replace update; database rows and
the results of database loads are modelled as explicit values passed to the
embedded functions.  Each definition mirrors the corresponding Python
function; doc comments name the source location. -/

/- ------------------------------------------------------------------ -/
/- Python string primitives                                            -/
/- ------------------------------------------------------------------ -/

/-- Python `str.strip()`: remove whitespace from both ends
(whitespace modelled by `Char.isWhitespace`). -/
def pyStrip (s : List Char) : List Char :=
  ((s.dropWhile Char.isWhitespace).reverse.dropWhile Char.isWhitespace).reverse

/- ------------------------------------------------------------------ -/
/- handle_commands.py: parse_mattermost_registration_key (lines 31-49) -/
/- ------------------------------------------------------------------ -/

/-- The literal prefix `"mattermost_"` used by the registration-key format. -/
def keyPrefixChars : List Char := "mattermost_".toList

/-- Embedding of `parse_mattermost_registration_key`
(`handle_commands.py` lines 31-49): check the `mattermost_` prefix, drop it,
require a `'.'` in the remainder, take everything before the first `'.'`,
and return it only when non-empty (`return tenant_id if tenant_id else None`). -/
def parse_mattermost_registration_key (key : List Char) : Option (List Char) :=
  if keyPrefixChars.isPrefixOf key then
    let rest := key.drop keyPrefixChars.length
    if rest.contains '.' then
      let tenant_id := rest.takeWhile (fun c => c ≠ '.')
      if tenant_id = [] then none else some tenant_id
    else none
  else none

/- ------------------------------------------------------------------ -/
/- handle_commands.py: handle_command (lines 52-79)                    -/
/- ------------------------------------------------------------------ -/

/-- `REGISTER_COMMAND` from `constants.py`. -/
def REGISTER_COMMAND : List Char := "register".toList

/-- `SYNC_CHANNELS_COMMAND` from `constants.py`. -/
def SYNC_CHANNELS_COMMAND : List Char := "sync-channels".toList

/-- The boolean returned by `handle_command` (`handle_commands.py` lines
52-79): strip the message text; `False` unless it starts with `"!"`; then
`True` iff it starts with `"!register"` or `"!sync-channels"`
(Python `str.startswith`, hence plain prefix match). -/
def handle_command_returns (text : List Char) : Bool :=
  if ('!' :: []).isPrefixOf (pyStrip text) then
    if ('!' :: REGISTER_COMMAND).isPrefixOf (pyStrip text) then true
    else if ('!' :: SYNC_CHANNELS_COMMAND).isPrefixOf (pyStrip text) then true
    else false
  else false

/-- The first whitespace-delimited token of a string; used to state the
spec's reading of "recognized commands". -/
def firstToken (s : List Char) : List Char := s.takeWhile (fun c => !c.isWhitespace)

/-- Modelled from the spec: a message text "is one of the recognized commands
`register <key>`, `sync-channels`" when the command word — the first token of
the stripped text — is exactly `!register` or exactly `!sync-channels`. -/
def claimRecognizedCommand (text : List Char) : Prop :=
  firstToken (pyStrip text) = '!' :: REGISTER_COMMAND ∨
  firstToken (pyStrip text) = '!' :: SYNC_CHANNELS_COMMAND

/- ------------------------------------------------------------------ -/
/- Claim C2                                                            -/
/- ------------------------------------------------------------------ -/

theorem takeWhile_until_dot (T token : List Char) (h : ∀ c ∈ T, c ≠ '.') :
    (T ++ '.' :: token).takeWhile (fun c => c ≠ '.') = T := by
  induction T with
  | nil => simp [List.takeWhile_cons]
  | cons a T ih =>
    have ha : a ≠ '.' := h a (List.mem_cons_self a T)
    have ih' := ih (fun c hc => h c (List.mem_cons_of_mem a hc))
    have hpa : (fun c => decide (c ≠ '.')) a = true := by simp [ha]
    rw [List.cons_append, List.takeWhile_cons, if_pos hpa, ih']

/-- C2 counterexample: the key `"mattermost_.x"` has the form
`mattermost_<T>.<token>` with `T = ""` and `token = "x"`, yet parsing returns
`none`, not `some ""` as the claim states. -/
theorem parse_registration_key_empty_tenant_cex :
    "mattermost_.x".toList = keyPrefixChars ++ (([] : List Char) ++ '.' :: "x".toList) ∧
    parse_mattermost_registration_key ("mattermost_.x".toList) = none ∧
    parse_mattermost_registration_key ("mattermost_.x".toList) ≠ some ([] : List Char) := by
  refine ⟨by decide, by decide, by decide⟩

/-- C2 (amended): for every key of the form `mattermost_<T>.<token>` with `T`
non-empty (and `'.'`-free, so that the shown `'.'` is the first one after the
prefix), parsing returns `T`; a key missing the prefix, a key with no `'.'`
after the prefix, and a key with an empty `T` before the first `'.'` all
return `none`. -/
theorem parse_registration_key_spec :
    (∀ T token : List Char, ('.' ∉ T) → T ≠ [] →
        parse_mattermost_registration_key (keyPrefixChars ++ (T ++ '.' :: token)) = some T)
    ∧ (∀ key : List Char, ¬ keyPrefixChars <+: key →
        parse_mattermost_registration_key key = none)
    ∧ (∀ rest : List Char, ('.' ∉ rest) →
        parse_mattermost_registration_key (keyPrefixChars ++ rest) = none)
    ∧ (∀ token : List Char,
        parse_mattermost_registration_key (keyPrefixChars ++ '.' :: token) = none) := by
  refine ⟨?_, ?_, ?_, ?_⟩
  · intro T token hdot hne
    have hp : keyPrefixChars.isPrefixOf (keyPrefixChars ++ (T ++ '.' :: token)) = true :=
      List.isPrefixOf_iff_prefix.mpr (List.prefix_append _ _)
    have hc : (T ++ '.' :: token).contains '.' = true := by
      simp [List.contains, List.elem_iff]
    have ht : (T ++ '.' :: token).takeWhile (fun c => c ≠ '.') = T :=
      takeWhile_until_dot T token (fun c hc hcEq => hdot (hcEq ▸ hc))
    simp only [parse_mattermost_registration_key, hp, if_true, List.drop_left, hc, ht]
    simp [hne]
  · intro key hnp
    have hp : keyPrefixChars.isPrefixOf key = false := by
      cases hx : keyPrefixChars.isPrefixOf key with
      | false => rfl
      | true => exact absurd (List.isPrefixOf_iff_prefix.mp hx) hnp
    simp [parse_mattermost_registration_key, hp]
  · intro rest hdot
    have hp : keyPrefixChars.isPrefixOf (keyPrefixChars ++ rest) = true :=
      List.isPrefixOf_iff_prefix.mpr (List.prefix_append _ _)
    have hc : rest.contains '.' = false := by
      cases hx : rest.contains '.' with
      | false => rfl
      | true =>
        exfalso
        exact hdot (by simpa [List.contains, List.elem_iff] using hx)
    simp only [parse_mattermost_registration_key, hp, if_true, List.drop_left, hc]
    simp
  · intro token
    have hp : keyPrefixChars.isPrefixOf (keyPrefixChars ++ '.' :: token) = true :=
      List.isPrefixOf_iff_prefix.mpr (List.prefix_append _ _)
    have hc : ('.' :: token).contains '.' = true := by
      simp [List.contains, List.elem_iff]
    simp [parse_mattermost_registration_key, hp, List.drop_left, hc, List.takeWhile_cons]

/-- C2 witness: the amended theorem applied at concrete keys. -/
theorem parse_registration_key_spec_witness :
    parse_mattermost_registration_key (keyPrefixChars ++ ("T1".toList ++ '.' :: "tok".toList))
      = some ("T1".toList)
    ∧ parse_mattermost_registration_key ("nope".toList) = none
    ∧ parse_mattermost_registration_key (keyPrefixChars ++ "nodot".toList) = none
    ∧ parse_mattermost_registration_key (keyPrefixChars ++ '.' :: "tok".toList) = none := by
  refine ⟨parse_registration_key_spec.1 _ _ (by decide) (by decide),
    parse_registration_key_spec.2.1 _ ?_,
    parse_registration_key_spec.2.2.1 _ (by decide),
    parse_registration_key_spec.2.2.2 _⟩
  intro h
  have := h.subset
  have hm : 'm' ∈ "nope".toList := this (by decide)
  exact absurd hm (by decide)

/- ------------------------------------------------------------------ -/
/- Claim C6                                                            -/
/- ------------------------------------------------------------------ -/

/-- C6 counterexample: the stripped text `"!registered"` starts with `"!"`
and its command word `!registered` is neither recognized command, yet
`handle_command` treats it as a command and returns `True`
(the code matches on the plain text prefixes `"!register"`/`"!sync-channels"`). -/
theorem handle_command_unrecognized_cex :
    handle_command_returns ("!registered".toList) = true ∧
    ('!' :: []).isPrefixOf (pyStrip ("!registered".toList)) = true ∧
    ¬ claimRecognizedCommand ("!registered".toList) := by
  refine ⟨by decide, by decide, ?_⟩
  unfold claimRecognizedCommand
  decide

/-- C6 (amended): `handle_command` returns `False` for every message whose
stripped text does not start with `"!"`; it returns `True` exactly when the
stripped text starts with `"!register"` or `"!sync-channels"` (prefix match,
so for instance `"!registered"` is also treated as the register command), and
`False` for any other `"!"`-prefixed text. -/
theorem handle_command_recognition (text : List Char) :
    handle_command_returns text = true ↔
      (('!' :: REGISTER_COMMAND) <+: pyStrip text ∨
        ('!' :: SYNC_CHANNELS_COMMAND) <+: pyStrip text) := by
  unfold handle_command_returns
  split_ifs with h1 h2 h3
  · simp only [true_iff]
    exact Or.inl (List.isPrefixOf_iff_prefix.mp h2)
  · simp only [true_iff]
    exact Or.inr (List.isPrefixOf_iff_prefix.mp h3)
  · simp only [false_iff]
    rintro (h | h)
    · exact h2 (List.isPrefixOf_iff_prefix.mpr h)
    · exact h3 (List.isPrefixOf_iff_prefix.mpr h)
  · simp only [false_iff]
    rintro (h | h)
    · exact h1 (List.isPrefixOf_iff_prefix.mpr
        (List.IsPrefix.trans ⟨REGISTER_COMMAND, rfl⟩ h))
    · exact h1 (List.isPrefixOf_iff_prefix.mpr
        (List.IsPrefix.trans ⟨SYNC_CHANNELS_COMMAND, rfl⟩ h))

/- ------------------------------------------------------------------ -/
/- cache.py: MattermostCacheManager                                    -/
/- ------------------------------------------------------------------ -/

/-- Python dict update `m[k] = v` on an association list: replace in place if
the key is present, else append. -/
def dset (m : List (List Char × List Char)) (k v : List Char) :
    List (List Char × List Char) :=
  match m with
  | [] => [(k, v)]
  | (k', v') :: rest => if k' = k then (k, v) :: rest else (k', v') :: dset rest k v

/-- Python dict lookup `m.get(k)` on an association list. -/
def dget (m : List (List Char × List Char)) (k : List Char) : Option (List Char) :=
  match m with
  | [] => none
  | (k', v') :: rest => if k' = k then some v' else dget rest k

theorem dget_dset_self (m : List (List Char × List Char)) (k v : List Char) :
    dget (dset m k v) k = some v := by
  induction m with
  | nil => simp [dset, dget]
  | cons p rest ih =>
    obtain ⟨k', v'⟩ := p
    by_cases h : k' = k
    · simp [dset, dget, h]
    · simp [dset, dget, h, ih]

theorem dget_dset_ne (m : List (List Char × List Char)) (k v k' : List Char)
    (h : k' ≠ k) : dget (dset m k v) k' = dget m k' := by
  induction m with
  | nil => simp [dset, dget, Ne.symm h]
  | cons p rest ih =>
    obtain ⟨k'', v''⟩ := p
    by_cases hk : k'' = k
    · simp [dset, dget, hk, Ne.symm h]
    · by_cases hk' : k'' = k'
      · simp [dset, dget, hk, hk', h]
      · simp [dset, dget, hk, hk', ih]

/-- The four maps held by `MattermostCacheManager` (`cache.py` lines 24-30):
team->tenant, tenant->api-key, tenant->server-url, tenant->bot-token, plus
the `_initialized` flag. -/
structure CacheState where
  team_tenants : List (List Char × List Char)
  api_keys : List (List Char × List Char)
  server_urls : List (List Char × List Char)
  bot_tokens : List (List Char × List Char)
  initialized : Bool
deriving DecidableEq

/-- `get_tenant` (`cache.py` lines 160-162). -/
def CacheState.get_tenant (st : CacheState) (team_id : List Char) : Option (List Char) :=
  dget st.team_tenants team_id

/-- `get_api_key` (`cache.py` lines 164-166). -/
def CacheState.get_api_key (st : CacheState) (tenant_id : List Char) : Option (List Char) :=
  dget st.api_keys tenant_id

/-- `get_server_url` (`cache.py` lines 168-170). -/
def CacheState.get_server_url (st : CacheState) (tenant_id : List Char) : Option (List Char) :=
  dget st.server_urls tenant_id

/-- `get_bot_token` (`cache.py` lines 172-174). -/
def CacheState.get_bot_token (st : CacheState) (tenant_id : List Char) : Option (List Char) :=
  dget st.bot_tokens tenant_id

/-- The quadruple returned by `_load_tenant_data` for one tenant
(`cache.py` lines 123-158): enabled team ids, API key, server URL and bot
token; any of the last three may be absent. -/
structure TenantLoad where
  team_ids : List (List Char)
  api_key : Option (List Char)
  server_url : Option (List Char)
  bot_token : Option (List Char)
deriving DecidableEq

/-- Python truthiness of a `str | None` value: `None` and `""` are falsy. -/
def truthy : Option (List Char) → Bool
  | none => false
  | some s => s ≠ []

/-- One tenant's outcome inside `refresh_all`'s per-tenant loop: either the
load succeeded, or it raised (caught, logged, tenant skipped). -/
inductive TenantOutcome
  | ok (l : TenantLoad)
  | raised
deriving DecidableEq

/-- The external world consumed by one `refresh_all` cycle: whether the
cycle-level setup (the gated-tenant fetch / `get_all_tenant_ids` call, which
sits inside the `try` but outside the per-tenant `try`) raised, the gated
tenant set, the tenant id list, and each tenant's load outcome. -/
structure RefreshEnv where
  setupRaised : Bool
  gated : List (List Char)
  tenant_ids : List (List Char)
  load : List Char → TenantOutcome

/-- The `CacheError` raised by `refresh_all` (`exceptions.py`). -/
inductive CacheErr | cacheError
deriving DecidableEq

/-- The body of `refresh_all`'s per-tenant loop (`cache.py` lines 54-85):
skip gated tenants, tenants whose load raised, tenants with no enabled teams
and tenants with a falsy API key; otherwise enter every team id into the new
team->tenant map and record the tenant's API key and truthy credentials. -/
def refresh_step (env : RefreshEnv)
    (acc : List (List Char × List Char) × List (List Char × List Char) ×
      List (List Char × List Char) × List (List Char × List Char))
    (tenant_id : List Char) :
    List (List Char × List Char) × List (List Char × List Char) ×
      List (List Char × List Char) × List (List Char × List Char) :=
  if tenant_id ∈ env.gated then acc
  else match env.load tenant_id with
    | TenantOutcome.raised => acc
    | TenantOutcome.ok l =>
      if l.team_ids = [] then acc
      else if truthy l.api_key = false then acc
      else
        (l.team_ids.foldl (fun m t => dset m t tenant_id) acc.1,
         dset acc.2.1 tenant_id (l.api_key.getD []),
         if truthy l.server_url then dset acc.2.2.1 tenant_id (l.server_url.getD [])
           else acc.2.2.1,
         if truthy l.bot_token then dset acc.2.2.2 tenant_id (l.bot_token.getD [])
           else acc.2.2.2)

/-- The four brand-new maps built by a successful `refresh_all` cycle
(`cache.py` lines 41-91), published together with `initialized := true`. -/
def refresh_build (env : RefreshEnv) : CacheState :=
  { team_tenants := (env.tenant_ids.foldl (refresh_step env) ([], [], [], [])).1,
    api_keys := (env.tenant_ids.foldl (refresh_step env) ([], [], [], [])).2.1,
    server_urls := (env.tenant_ids.foldl (refresh_step env) ([], [], [], [])).2.2.1,
    bot_tokens := (env.tenant_ids.foldl (refresh_step env) ([], [], [], [])).2.2.2,
    initialized := true }

/-- Embedding of `refresh_all` (`cache.py` lines 36-100): if the cycle-level
setup raises, the `except` clause converts the exception to a `CacheError`
and the four maps are never assigned; otherwise the freshly built maps
replace the old ones together and no error is raised. -/
def refresh_all (st : CacheState) (env : RefreshEnv) : CacheState × Option CacheErr :=
  if env.setupRaised then (st, some CacheErr.cacheError)
  else (refresh_build env, none)

/- ------------------------------------------------------------------ -/
/- Claim C1                                                            -/
/- ------------------------------------------------------------------ -/

/-- C1: if a `refresh_all` call raises (the raised error being a
`CacheError`), all four cache maps equal their values before the call, hence
every `get_tenant` and every `get_api_key` result is unchanged. -/
theorem refresh_all_error_preserves_cache (st : CacheState) (env : RefreshEnv)
    (e : CacheErr) (h : (refresh_all st env).2 = some e) :
    (refresh_all st env).1 = st
    ∧ (∀ team_id, ((refresh_all st env).1).get_tenant team_id = st.get_tenant team_id)
    ∧ (∀ tenant_id, ((refresh_all st env).1).get_api_key tenant_id
        = st.get_api_key tenant_id) := by
  by_cases hs : env.setupRaised
  · simp [refresh_all, hs]
  · simp [refresh_all, hs] at h

/-- C1 witness: a cycle whose setup raises leaves a concrete non-empty cache
untouched. -/
theorem refresh_all_error_preserves_cache_witness :
    (refresh_all
        ⟨[("T".toList, "A".toList)], [("A".toList, "K".toList)], [], [], true⟩
        ⟨true, [], [], fun _ => TenantOutcome.raised⟩).2 = some CacheErr.cacheError
    ∧ (refresh_all
        ⟨[("T".toList, "A".toList)], [("A".toList, "K".toList)], [], [], true⟩
        ⟨true, [], [], fun _ => TenantOutcome.raised⟩).1
      = ⟨[("T".toList, "A".toList)], [("A".toList, "K".toList)], [], [], true⟩ :=
  ⟨rfl, (refresh_all_error_preserves_cache
      ⟨[("T".toList, "A".toList)], [("A".toList, "K".toList)], [], [], true⟩
      ⟨true, [], [], fun _ => TenantOutcome.raised⟩ CacheErr.cacheError rfl).1⟩

/- ------------------------------------------------------------------ -/
/- Claim C9                                                            -/
/- ------------------------------------------------------------------ -/

/-- Embedding of `refresh_team` (`cache.py` lines 102-121), the result of
`_load_tenant_data` passed explicitly: only when the given `team_id` is among
the loaded enabled team ids does it merge that team and the tenant's truthy
credentials into the existing maps; otherwise it only logs. -/
def refresh_team (st : CacheState) (team_id tenant_id : List Char) (load : TenantLoad) :
    CacheState :=
  if team_id ∈ load.team_ids then
    { st with
      team_tenants := dset st.team_tenants team_id tenant_id,
      api_keys :=
        if truthy load.api_key then dset st.api_keys tenant_id (load.api_key.getD [])
        else st.api_keys,
      server_urls :=
        if truthy load.server_url then dset st.server_urls tenant_id (load.server_url.getD [])
        else st.server_urls,
      bot_tokens :=
        if truthy load.bot_token then dset st.bot_tokens tenant_id (load.bot_token.getD [])
        else st.bot_tokens }
  else st

/-- C9: `refresh_team` leaves the cache exactly as it was when `team_id` is
not among the tenant's loaded enabled team ids; when it is, the only changes
are that `team_id` now maps to `tenant_id` and that the tenant's truthy
credentials are merged in — every other team's and tenant's entries (and the
`initialized` flag) are unchanged. -/
theorem refresh_team_frame (st : CacheState) (team_id tenant_id : List Char)
    (load : TenantLoad) :
    (team_id ∉ load.team_ids → refresh_team st team_id tenant_id load = st)
    ∧ (team_id ∈ load.team_ids →
        (refresh_team st team_id tenant_id load).get_tenant team_id = some tenant_id
        ∧ (∀ t, t ≠ team_id →
            (refresh_team st team_id tenant_id load).get_tenant t = st.get_tenant t)
        ∧ ((refresh_team st team_id tenant_id load).get_api_key tenant_id
            = if truthy load.api_key then some (load.api_key.getD [])
              else st.get_api_key tenant_id)
        ∧ (∀ tn, tn ≠ tenant_id →
            (refresh_team st team_id tenant_id load).get_api_key tn = st.get_api_key tn)
        ∧ ((refresh_team st team_id tenant_id load).get_server_url tenant_id
            = if truthy load.server_url then some (load.server_url.getD [])
              else st.get_server_url tenant_id)
        ∧ (∀ tn, tn ≠ tenant_id →
            (refresh_team st team_id tenant_id load).get_server_url tn
              = st.get_server_url tn)
        ∧ ((refresh_team st team_id tenant_id load).get_bot_token tenant_id
            = if truthy load.bot_token then some (load.bot_token.getD [])
              else st.get_bot_token tenant_id)
        ∧ (∀ tn, tn ≠ tenant_id →
            (refresh_team st team_id tenant_id load).get_bot_token tn
              = st.get_bot_token tn)
        ∧ (refresh_team st team_id tenant_id load).initialized = st.initialized) := by
  constructor
  · intro h
    simp [refresh_team, h]
  · intro h
    refine ⟨?_, ?_, ?_, ?_, ?_, ?_, ?_, ?_, ?_⟩
    · simp [refresh_team, h, CacheState.get_tenant, dget_dset_self]
    · intro t ht
      simp [refresh_team, h, CacheState.get_tenant, dget_dset_ne _ _ _ _ ht]
    · by_cases hk : truthy load.api_key
      · simp [refresh_team, h, CacheState.get_api_key, hk, dget_dset_self]
      · simp [refresh_team, h, CacheState.get_api_key, hk]
    · intro tn htn
      by_cases hk : truthy load.api_key
      · simp [refresh_team, h, CacheState.get_api_key, hk, dget_dset_ne _ _ _ _ htn]
      · simp [refresh_team, h, CacheState.get_api_key, hk]
    · by_cases hk : truthy load.server_url
      · simp [refresh_team, h, CacheState.get_server_url, hk, dget_dset_self]
      · simp [refresh_team, h, CacheState.get_server_url, hk]
    · intro tn htn
      by_cases hk : truthy load.server_url
      · simp [refresh_team, h, CacheState.get_server_url, hk, dget_dset_ne _ _ _ _ htn]
      · simp [refresh_team, h, CacheState.get_server_url, hk]
    · by_cases hk : truthy load.bot_token
      · simp [refresh_team, h, CacheState.get_bot_token, hk, dget_dset_self]
      · simp [refresh_team, h, CacheState.get_bot_token, hk]
    · intro tn htn
      by_cases hk : truthy load.bot_token
      · simp [refresh_team, h, CacheState.get_bot_token, hk, dget_dset_ne _ _ _ _ htn]
      · simp [refresh_team, h, CacheState.get_bot_token, hk]
    · simp [refresh_team, h]

/-- C9 witness: the frame theorem applied at a concrete cache, tenant load
and team, in both the absent-team and present-team cases. -/
theorem refresh_team_frame_witness :
    refresh_team
        ⟨[("TA".toList, "X".toList)], [("X".toList, "K0".toList)], [], [], false⟩
        ("TC".toList) ("Y".toList) ⟨["TB".toList], some ("K1".toList), none, none⟩
      = ⟨[("TA".toList, "X".toList)], [("X".toList, "K0".toList)], [], [], false⟩
    ∧ (refresh_team
        ⟨[("TA".toList, "X".toList)], [("X".toList, "K0".toList)], [], [], false⟩
        ("TB".toList) ("Y".toList)
        ⟨["TB".toList], some ("K1".toList), none, none⟩).get_tenant ("TB".toList)
      = some ("Y".toList)
    ∧ (refresh_team
        ⟨[("TA".toList, "X".toList)], [("X".toList, "K0".toList)], [], [], false⟩
        ("TB".toList) ("Y".toList)
        ⟨["TB".toList], some ("K1".toList), none, none⟩).get_api_key ("X".toList)
      = some ("K0".toList) :=
  ⟨(refresh_team_frame _ _ _ _).1 (by decide),
   ((refresh_team_frame _ _ _ _).2 (by decide)).1,
   (((refresh_team_frame
      ⟨[("TA".toList, "X".toList)], [("X".toList, "K0".toList)], [], [], false⟩
      ("TB".toList) ("Y".toList)
      ⟨["TB".toList], some ("K1".toList), none, none⟩).2
        (by decide)).2.2.2.1 ("X".toList) (by decide)).trans (by decide)⟩

/- ------------------------------------------------------------------ -/
/- handle_commands.py: _register_team (lines 154-209)                  -/
/- ------------------------------------------------------------------ -/

/-- A `MattermostTeamConfig` row as consumed by `_register_team`
(`db/models.py` via `db/mattermost_bot.py`): `team_id` is null until the
registration key is consumed. -/
structure MattermostTeamConfig where
  id : Nat
  registration_key : List Char
  team_id : Option (List Char)
  team_name : Option (List Char)
  enabled : Bool
  default_persona_id : Option Nat
  registered_at : Option Nat
deriving DecidableEq

/-- `get_team_config_by_registration_key` (`db/mattermost_bot.py`): the row
whose `registration_key` matches. -/
def get_team_config_by_registration_key (db : List MattermostTeamConfig)
    (registration_key : List Char) : Option MattermostTeamConfig :=
  db.find? (fun c => c.registration_key = registration_key)

/-- The two `RegistrationError` cases raised inside `_register_team`'s
database transaction (`handle_commands.py` lines 174-187). -/
inductive RegistrationErr
  | keyNotFound
  | keyAlreadyUsed
deriving DecidableEq

/-- Embedding of `_register_team`'s `_sync_register` body
(`handle_commands.py` lines 170-199): look up the row by registration key —
no row raises `keyNotFound`; a row whose `team_id` is already set raises
`keyAlreadyUsed`; otherwise bind `team_id`, set `team_name` to
`"Team " + team_id[:8]`, stamp `registered_at` and commit.  A raised error
aborts the session before `db.commit()`, so the database is returned
unchanged on both error paths. -/
def register_team_db (db : List MattermostTeamConfig)
    (registration_key team_id : List Char) (now : Nat) :
    List MattermostTeamConfig × Except RegistrationErr Nat :=
  match get_team_config_by_registration_key db registration_key with
  | none => (db, Except.error RegistrationErr.keyNotFound)
  | some config =>
    match config.team_id with
    | some _ => (db, Except.error RegistrationErr.keyAlreadyUsed)
    | none =>
      let updated := { config with
        team_id := some team_id,
        team_name := some ("Team ".toList ++ team_id.take 8),
        registered_at := some now }
      (db.map (fun c => if c.id = config.id then updated else c), Except.ok config.id)

/- ------------------------------------------------------------------ -/
/- Claim C5                                                            -/
/- ------------------------------------------------------------------ -/

/-- C5: whenever the registration key resolves to a row whose `team_id` is
already set, `_register_team` raises the key-already-used error and leaves
the database unchanged — for every attempting team and timestamp, so a key
once bound to a team is rejected on every subsequent attempt. -/
theorem register_team_key_already_used (db : List MattermostTeamConfig)
    (registration_key team_id : List Char) (now : Nat)
    (config : MattermostTeamConfig) (t : List Char)
    (hfind : get_team_config_by_registration_key db registration_key = some config)
    (hbound : config.team_id = some t) :
    register_team_db db registration_key team_id now
      = (db, Except.error RegistrationErr.keyAlreadyUsed) := by
  simp [register_team_db, hfind, hbound]

/-- C5 witness: a concrete database holding a key already bound to team
`"TA"` rejects a registration attempt by team `"TB"` and is unchanged. -/
theorem register_team_key_already_used_witness :
    register_team_db
        [⟨1, "mattermost_x.k".toList, some ("TA".toList), some ("Team TA".toList),
          true, none, some 5⟩]
        ("mattermost_x.k".toList) ("TB".toList) 9
      = ([⟨1, "mattermost_x.k".toList, some ("TA".toList), some ("Team TA".toList),
          true, none, some 5⟩], Except.error RegistrationErr.keyAlreadyUsed) :=
  register_team_key_already_used _ _ _ _
    ⟨1, "mattermost_x.k".toList, some ("TA".toList), some ("Team TA".toList),
      true, none, some 5⟩
    ("TA".toList) (by decide) rfl

/- ------------------------------------------------------------------ -/
/- handle_message.py: _split_message (lines 372-391)                   -/
/- ------------------------------------------------------------------ -/

/-- `MAX_MESSAGE_LENGTH` from `constants.py` (Mattermost's max post length). -/
def MAX_MESSAGE_LENGTH : Nat := 16383

/-- The separator `"\n\n"`. -/
def sepNl2 : List Char := ['\n', '\n']

/-- The separator `"\n"`. -/
def sepNl1 : List Char := ['\n']

/-- The separator `". "`. -/
def sepPeriodSpace : List Char := ['.', ' ']

/-- The separator `" "`. -/
def sepSpace : List Char := [' ']

/-- The separator preference order of `_split_message`
(`handle_message.py` line 382). -/
def splitSeps : List (List Char) := [sepNl2, sepNl1, sepPeriodSpace, sepSpace]

/-- The largest position `j ≤ start` at which `sep` occurs in `content`
(scanning downward), or `none`. -/
def rfindDown (content sep : List Char) : Nat → Option Nat
  | 0 => if sep.isPrefixOf (content.drop 0) then some 0 else none
  | i + 1 =>
    if sep.isPrefixOf (content.drop (i + 1)) then some (i + 1)
    else rfindDown content sep i

/-- Python `content.rfind(sep, 0, stop)` (with `none` for `-1`): the largest
`i` with `i + sep.length ≤ min stop content.length` such that `sep` occurs at
position `i` — an occurrence must lie entirely inside the search window. -/
def pyRfind (content sep : List Char) (stop : Nat) : Option Nat :=
  if sep.length ≤ min stop content.length then
    rfindDown content sep (min stop content.length - sep.length)
  else none

/-- One iteration of the separator loop of `_split_message`
(`handle_message.py` lines 382-386): a separator is used only when its
rightmost occurrence before the limit starts strictly past
`MAX_MESSAGE_LENGTH // 2`; the split point is then `idx + len(sep)`. -/
def trySplitAt (content sep : List Char) : Option Nat :=
  match pyRfind content sep MAX_MESSAGE_LENGTH with
  | some idx => if MAX_MESSAGE_LENGTH / 2 < idx then some (idx + sep.length) else none
  | none => none

/-- The split point chosen by `_split_message` for an over-long message: the
first accepted separator in preference order, else the hard limit. -/
def find_split_at (content : List Char) : Nat :=
  (splitSeps.findSome? (trySplitAt content)).getD MAX_MESSAGE_LENGTH

/-- The `while content:` loop of `_split_message` (`handle_message.py` lines
372-391), with explicit fuel.  Every iteration consumes at least one
character (`find_split_at_bounds`), so fuel `content.length` suffices; the
reconstruction theorem below confirms no fuel shortfall truncates a result. -/
def split_message_go : Nat → List Char → List (List Char)
  | 0, _ => []
  | _ + 1, [] => []
  | fuel + 1, c :: cs =>
    if (c :: cs).length ≤ MAX_MESSAGE_LENGTH then [c :: cs]
    else
      (c :: cs).take (find_split_at (c :: cs)) ::
        split_message_go fuel ((c :: cs).drop (find_split_at (c :: cs)))

/-- Embedding of `_split_message` (`handle_message.py` lines 372-391). -/
def split_message (content : List Char) : List (List Char) :=
  split_message_go content.length content

theorem bool_ne_true {b : Bool} (h : b = false) : ¬ b = true := by
  intro hh
  rw [h] at hh
  exact Bool.noConfusion hh

theorem rfindDown_le (content sep : List Char) (start j : Nat)
    (h : rfindDown content sep start = some j) : j ≤ start := by
  induction start with
  | zero =>
    unfold rfindDown at h
    by_cases hp : sep.isPrefixOf (content.drop 0) = true
    · rw [if_pos hp] at h
      injection h with h
      omega
    · rw [if_neg hp] at h
      exact absurd h (by simp)
  | succ i ih =>
    unfold rfindDown at h
    by_cases hp : sep.isPrefixOf (content.drop (i + 1)) = true
    · rw [if_pos hp] at h
      injection h with h
      omega
    · rw [if_neg hp] at h
      exact Nat.le_succ_of_le (ih h)

theorem rfindDown_eq_some (content sep : List Char) (start j : Nat) (hj : j ≤ start)
    (hpre : sep.isPrefixOf (content.drop j) = true)
    (habove : ∀ k, j < k → k ≤ start → sep.isPrefixOf (content.drop k) = false) :
    rfindDown content sep start = some j := by
  induction start with
  | zero =>
    have hj0 : j = 0 := by omega
    subst hj0
    unfold rfindDown
    rw [if_pos hpre]
  | succ i ih =>
    by_cases hj' : j = i + 1
    · subst hj'
      unfold rfindDown
      rw [if_pos hpre]
    · have hfa : sep.isPrefixOf (content.drop (i + 1)) = false :=
        habove (i + 1) (by omega) (Nat.le_refl _)
      unfold rfindDown
      rw [if_neg (bool_ne_true hfa)]
      exact ih (by omega) (fun k hk1 hk2 => habove k hk1 (by omega))

theorem rfindDown_eq_none (content sep : List Char) (start : Nat)
    (h : ∀ k, k ≤ start → sep.isPrefixOf (content.drop k) = false) :
    rfindDown content sep start = none := by
  induction start with
  | zero =>
    unfold rfindDown
    rw [if_neg (bool_ne_true (h 0 (Nat.le_refl 0)))]
  | succ i ih =>
    unfold rfindDown
    rw [if_neg (bool_ne_true (h (i + 1) (Nat.le_refl _)))]
    exact ih (fun k hk => h k (by omega))

theorem pyRfind_some_bound (content sep : List Char) (stop idx : Nat)
    (h : pyRfind content sep stop = some idx) :
    idx + sep.length ≤ min stop content.length := by
  unfold pyRfind at h
  by_cases hl : sep.length ≤ min stop content.length
  · rw [if_pos hl] at h
    have := rfindDown_le _ _ _ _ h
    omega
  · rw [if_neg hl] at h
    exact absurd h (by simp)

theorem pyRfind_eq_none_of_not_mem (content sep : List Char) (stop : Nat) (c : Char)
    (hc : c ∈ sep) (hnc : c ∉ content) : pyRfind content sep stop = none := by
  unfold pyRfind
  by_cases hl : sep.length ≤ min stop content.length
  · rw [if_pos hl]
    apply rfindDown_eq_none
    intro k _
    cases hp : sep.isPrefixOf (content.drop k) with
    | false => rfl
    | true =>
      exfalso
      have hsub := (List.isPrefixOf_iff_prefix.mp hp).subset
      exact hnc (List.drop_subset k content (hsub hc))
  · rw [if_neg hl]

theorem findSome?_eq_some_of_mem {α β : Type} (l : List α) (f : α → Option β) (v : β)
    (h : l.findSome? f = some v) : ∃ a ∈ l, f a = some v := by
  induction l with
  | nil => simp [List.findSome?] at h
  | cons a as ih =>
    cases hfa : f a with
    | some b =>
      rw [List.findSome?_cons, hfa] at h
      exact ⟨a, List.mem_cons_self a as, by rw [hfa]; exact h⟩
    | none =>
      rw [List.findSome?_cons, hfa] at h
      obtain ⟨x, hx, hfx⟩ := ih h
      exact ⟨x, List.mem_cons_of_mem a hx, hfx⟩

theorem findSome?_eq_none_of_all {α β : Type} (l : List α) (f : α → Option β)
    (h : ∀ a ∈ l, f a = none) : l.findSome? f = none := by
  induction l with
  | nil => simp [List.findSome?]
  | cons a as ih =>
    rw [List.findSome?_cons, h a (List.mem_cons_self a as)]
    exact ih (fun x hx => h x (List.mem_cons_of_mem a hx))

theorem find_split_at_bounds (content : List Char) :
    1 ≤ find_split_at content ∧ find_split_at content ≤ MAX_MESSAGE_LENGTH := by
  unfold find_split_at
  cases hf : splitSeps.findSome? (trySplitAt content) with
  | none => simp [MAX_MESSAGE_LENGTH]
  | some v =>
    obtain ⟨sep, _, htry⟩ := findSome?_eq_some_of_mem _ _ _ hf
    unfold trySplitAt at htry
    cases hr : pyRfind content sep MAX_MESSAGE_LENGTH with
    | none =>
      rw [hr] at htry
      exact absurd htry (by simp)
    | some idx =>
      rw [hr] at htry
      dsimp only at htry
      by_cases hh : MAX_MESSAGE_LENGTH / 2 < idx
      · rw [if_pos hh] at htry
        injection htry with hv
        have hb := pyRfind_some_bound _ _ _ _ hr
        simp only [Option.getD_some]
        omega
      · rw [if_neg hh] at htry
        exact absurd htry (by simp)

theorem split_message_go_small (fuel : Nat) (content : List Char) (hf : 1 ≤ fuel)
    (hne : content ≠ []) (h : content.length ≤ MAX_MESSAGE_LENGTH) :
    split_message_go fuel content = [content] := by
  cases fuel with
  | zero => omega
  | succ f =>
    cases content with
    | nil => exact absurd rfl hne
    | cons c cs =>
      unfold split_message_go
      rw [if_pos h]

theorem split_message_go_step (fuel : Nat) (content : List Char)
    (h : MAX_MESSAGE_LENGTH < content.length) :
    split_message_go (fuel + 1) content
      = content.take (find_split_at content) ::
        split_message_go fuel (content.drop (find_split_at content)) := by
  cases content with
  | nil => exact absurd h (by simp)
  | cons c cs =>
    conv_lhs => unfold split_message_go
    rw [if_neg (by omega)]

theorem split_message_head (content : List Char)
    (h : MAX_MESSAGE_LENGTH < content.length) :
    (split_message content).head? = some (content.take (find_split_at content)) := by
  obtain ⟨k, hk⟩ : ∃ k, content.length = k + 1 := ⟨content.length - 1, by omega⟩
  unfold split_message
  rw [hk, split_message_go_step k content h]
  rfl

theorem split_message_go_spec (fuel : Nat) :
    ∀ content : List Char, content.length ≤ fuel →
      (split_message_go fuel content).flatten = content
      ∧ ∀ chunk ∈ split_message_go fuel content,
          chunk ≠ [] ∧ chunk.length ≤ MAX_MESSAGE_LENGTH := by
  induction fuel with
  | zero =>
    intro content hlen
    have h0 : content = [] := by
      cases content with
      | nil => rfl
      | cons c cs => exact absurd hlen (by simp)
    subst h0
    exact ⟨rfl, by intro chunk hchunk; simp [split_message_go] at hchunk⟩
  | succ fuel ih =>
    intro content hlen
    cases content with
    | nil =>
      exact ⟨rfl, by intro chunk hchunk; simp [split_message_go] at hchunk⟩
    | cons c cs =>
      by_cases hle : (c :: cs).length ≤ MAX_MESSAGE_LENGTH
      · rw [split_message_go_small (fuel + 1) (c :: cs) (by omega) (by simp) hle]
        refine ⟨by simp, ?_⟩
        intro chunk hchunk
        rw [List.mem_singleton] at hchunk
        subst hchunk
        exact ⟨by simp, hle⟩
      · have hover : MAX_MESSAGE_LENGTH < (c :: cs).length := by omega
        have hbounds := find_split_at_bounds (c :: cs)
        rw [split_message_go_step fuel (c :: cs) hover]
        have hdlen : ((c :: cs).drop (find_split_at (c :: cs))).length ≤ fuel := by
          rw [List.length_drop]
          omega
        obtain ⟨ihj, ihc⟩ := ih ((c :: cs).drop (find_split_at (c :: cs))) hdlen
        constructor
        · rw [List.flatten_cons, ihj, List.take_append_drop]
        · intro chunk hchunk
          rw [List.mem_cons] at hchunk
          rcases hchunk with h1 | h1
          · subst h1
            have htl : ((c :: cs).take (find_split_at (c :: cs))).length
                = find_split_at (c :: cs) := by
              rw [List.length_take]
              omega
            constructor
            · intro hnil
              rw [hnil] at htl
              simp at htl
              omega
            · rw [List.length_take]
              omega
          · exact ihc chunk h1

/-- C10: `_split_message` is total (the fuel `content.length` of the modelled
`while` loop is never exhausted — the reconstruction equation below shows no
content is dropped), the plain concatenation of the returned chunks is
exactly the input (each chosen separator is retained at the end of the chunk
preceding the split, nothing dropped or duplicated), every chunk is non-empty
with length at most `MAX_MESSAGE_LENGTH = 16383`, and the empty string yields
the empty list. -/
theorem split_message_reconstruction (content : List Char) :
    (split_message content).flatten = content
    ∧ (∀ chunk ∈ split_message content,
        chunk ≠ [] ∧ chunk.length ≤ MAX_MESSAGE_LENGTH)
    ∧ (content = [] → split_message content = []) := by
  refine ⟨(split_message_go_spec content.length content (Nat.le_refl _)).1,
    (split_message_go_spec content.length content (Nat.le_refl _)).2, ?_⟩
  intro h
  subst h
  rfl

/-- C10 witness: the reconstruction theorem applied to a concrete short
message and to the empty message. -/
theorem split_message_reconstruction_witness :
    (split_message ("hi".toList)).flatten = "hi".toList
    ∧ ("hi".toList ≠ [] ∧ ("hi".toList).length ≤ MAX_MESSAGE_LENGTH)
    ∧ split_message ([] : List Char) = [] :=
  ⟨(split_message_reconstruction ("hi".toList)).1,
   (split_message_reconstruction ("hi".toList)).2.1 ("hi".toList) (by decide),
   (split_message_reconstruction ([] : List Char)).2.2 rfl⟩

/-- C7: an input of length exactly `MAX_MESSAGE_LENGTH + 1` made of non-empty
space-free, newline-free words joined by single spaces splits into exactly
two chunks, each within the limit, whose concatenation is the original text
(the chosen separator is retained at the end of the first chunk, so plain
concatenation already reconstructs the input — no character is consumed). -/
theorem split_message_overflow_by_one (content : List Char)
    (hlen : content.length = MAX_MESSAGE_LENGTH + 1)
    (_hwords : ∃ words : List (List Char), words ≠ []
      ∧ (∀ w ∈ words, w ≠ [] ∧ ∀ ch ∈ w, ch ≠ ' ' ∧ ch ≠ '\n')
      ∧ content = List.intercalate [' '] words) :
    (split_message content).length = 2
    ∧ (∀ chunk ∈ split_message content, chunk.length ≤ MAX_MESSAGE_LENGTH)
    ∧ (split_message content).flatten = content := by
  have hbounds := find_split_at_bounds content
  have hover : MAX_MESSAGE_LENGTH < content.length := by omega
  have hsplit : split_message content
      = content.take (find_split_at content) ::
        split_message_go MAX_MESSAGE_LENGTH (content.drop (find_split_at content)) := by
    unfold split_message
    rw [hlen]
    exact split_message_go_step MAX_MESSAGE_LENGTH content hover
  have hplen : (content.drop (find_split_at content)).length
      = content.length - find_split_at content := List.length_drop _ _
  have hrest : split_message_go MAX_MESSAGE_LENGTH (content.drop (find_split_at content))
      = [content.drop (find_split_at content)] := by
    apply split_message_go_small
    · decide
    · intro hnil
      rw [hnil] at hplen
      simp at hplen
      omega
    · rw [hplen]
      omega
  rw [hsplit, hrest]
  refine ⟨rfl, ?_, ?_⟩
  · intro chunk hchunk
    rw [List.mem_cons, List.mem_singleton] at hchunk
    rcases hchunk with h1 | h1
    · subst h1
      rw [List.length_take]
      omega
    · subst h1
      rw [hplen]
      omega
  · rw [List.flatten_cons, List.flatten_cons, List.flatten_nil, List.append_nil,
      List.take_append_drop]

theorem intercalate_singleton (sep w : List Char) : List.intercalate sep [w] = w := by
  simp [List.intercalate, List.intersperse]

/-- C7 witness: the overflow theorem applied to the single 16384-character
word `'x' * 16384` (one word, no separator occurrence at all). -/
theorem split_message_overflow_by_one_witness :
    (List.replicate 16384 'x').length = MAX_MESSAGE_LENGTH + 1
    ∧ (split_message (List.replicate 16384 'x')).length = 2
    ∧ (split_message (List.replicate 16384 'x')).flatten = List.replicate 16384 'x' := by
  have hlen : (List.replicate 16384 'x').length = MAX_MESSAGE_LENGTH + 1 := by
    rw [List.length_replicate]
    decide
  have hwords : ∃ words : List (List Char), words ≠ []
      ∧ (∀ w ∈ words, w ≠ [] ∧ ∀ ch ∈ w, ch ≠ ' ' ∧ ch ≠ '\n')
      ∧ List.replicate 16384 'x' = List.intercalate [' '] words := by
    refine ⟨[List.replicate 16384 'x'], List.cons_ne_nil _ _, ?_,
      (intercalate_singleton _ _).symm⟩
    intro w hw
    rw [List.mem_singleton] at hw
    subst hw
    refine ⟨List.ne_nil_of_length_pos (by rw [List.length_replicate]; omega), ?_⟩
    intro ch hch
    rw [List.mem_replicate] at hch
    rw [hch.2]
    exact ⟨by decide, by decide⟩
  exact ⟨hlen, (split_message_overflow_by_one _ hlen hwords).1,
    (split_message_overflow_by_one _ hlen hwords).2.2⟩

/- ------------------------------------------------------------------ -/
/- Claim C3                                                            -/
/- ------------------------------------------------------------------ -/

theorem findSome?_forall_none {α β : Type} (l : List α) (f : α → Option β)
    (h : l.findSome? f = none) : ∀ a ∈ l, f a = none := by
  induction l with
  | nil =>
    intro a ha
    exact absurd ha (List.not_mem_nil a)
  | cons a as ih =>
    intro x hx
    cases hfa : f a with
    | some b =>
      rw [List.findSome?_cons, hfa] at h
      exact absurd h (by simp)
    | none =>
      rw [List.findSome?_cons, hfa] at h
      rw [List.mem_cons] at hx
      rcases hx with hx | hx
      · subst hx
        exact hfa
      · exact ih h x hx

/-- The C3 boundary input: 8191 `'a'`s, one space starting exactly at index
`8191 = MAX_MESSAGE_LENGTH / 2`, then 8192 `'b'`s — length 16384 with no
newline and no period anywhere. -/
def cexC3 : List Char := List.replicate 8191 'a' ++ ' ' :: List.replicate 8192 'b'

theorem cexC3_length : cexC3.length = 16384 := by
  unfold cexC3
  rw [List.length_append, List.length_replicate, List.length_cons, List.length_replicate]

theorem cexC3_not_mem (c : Char) (ha : c ≠ 'a') (hs : c ≠ ' ') (hb : c ≠ 'b') :
    c ∉ cexC3 := by
  unfold cexC3
  intro hmem
  rw [List.mem_append, List.mem_cons] at hmem
  rcases hmem with h | h | h
  · exact ha (List.eq_of_mem_replicate h)
  · exact hs h
  · exact hb (List.eq_of_mem_replicate h)

theorem drop_append_add {α : Type} (l1 l2 : List α) (k : Nat) :
    (l1 ++ l2).drop (l1.length + k) = l2.drop k := by
  induction l1 with
  | nil => rw [List.nil_append, List.length_nil, Nat.zero_add]
  | cons a l1 ih =>
    rw [List.cons_append, List.length_cons]
    have hx : l1.length + 1 + k = (l1.length + k) + 1 := by omega
    rw [hx, List.drop_succ_cons, ih]

theorem cexC3_drop_space : cexC3.drop 8191 = ' ' :: List.replicate 8192 'b' := by
  have h := drop_append_add (List.replicate 8191 'a') (' ' :: List.replicate 8192 'b') 0
  rw [List.length_replicate, Nat.add_zero, List.drop_zero] at h
  exact h

theorem cexC3_drop_high (j : Nat) (hj : 8192 ≤ j) :
    cexC3.drop j = List.replicate (16384 - j) 'b' := by
  have hsplit : cexC3 = (List.replicate 8191 'a' ++ [' ']) ++ List.replicate 8192 'b' := by
    rw [List.append_assoc, List.singleton_append]
    rfl
  have hlen2 : (List.replicate 8191 'a' ++ [' ']).length = 8192 := by
    rw [List.length_append, List.length_replicate, List.length_cons, List.length_nil]
  have hj' : j = (List.replicate 8191 'a' ++ [' ']).length + (j - 8192) := by
    rw [hlen2]
    omega
  conv_lhs => rw [hsplit, hj']
  rw [drop_append_add, List.drop_replicate]
  rw [show (8192 - (j - 8192) : Nat) = 16384 - j from by omega]

theorem cexC3_rfind_space :
    pyRfind cexC3 sepSpace MAX_MESSAGE_LENGTH = some 8191 := by
  unfold pyRfind
  rw [cexC3_length]
  rw [if_pos (by decide : sepSpace.length ≤ min MAX_MESSAGE_LENGTH 16384)]
  rw [show min MAX_MESSAGE_LENGTH 16384 - sepSpace.length = 16382 from by decide]
  apply rfindDown_eq_some
  · omega
  · rw [cexC3_drop_space]
    rfl
  · intro k hk1 hk2
    have hd := cexC3_drop_high k (by omega)
    rw [hd]
    rw [show (16384 - k : Nat) = (16383 - k) + 1 from by omega, List.replicate_succ]
    rfl

theorem cexC3_rfind_nl2 : pyRfind cexC3 sepNl2 MAX_MESSAGE_LENGTH = none :=
  pyRfind_eq_none_of_not_mem _ _ _ '\n' (by decide)
    (cexC3_not_mem '\n' (by decide) (by decide) (by decide))

theorem cexC3_rfind_nl1 : pyRfind cexC3 sepNl1 MAX_MESSAGE_LENGTH = none :=
  pyRfind_eq_none_of_not_mem _ _ _ '\n' (by decide)
    (cexC3_not_mem '\n' (by decide) (by decide) (by decide))

theorem cexC3_rfind_ps : pyRfind cexC3 sepPeriodSpace MAX_MESSAGE_LENGTH = none :=
  pyRfind_eq_none_of_not_mem _ _ _ '.' (by decide)
    (cexC3_not_mem '.' (by decide) (by decide) (by decide))

theorem trySplitAt_eq_none_of_rfind_none (content sep : List Char)
    (h : pyRfind content sep MAX_MESSAGE_LENGTH = none) :
    trySplitAt content sep = none := by
  unfold trySplitAt
  rw [h]

theorem trySplitAt_eq_none_of_le (content sep : List Char) (idx : Nat)
    (h : pyRfind content sep MAX_MESSAGE_LENGTH = some idx)
    (hle : idx ≤ MAX_MESSAGE_LENGTH / 2) :
    trySplitAt content sep = none := by
  unfold trySplitAt
  rw [h]
  dsimp only
  rw [if_neg (by omega)]

theorem find_split_at_eq_max (content : List Char)
    (h : ∀ sep ∈ splitSeps, trySplitAt content sep = none) :
    find_split_at content = MAX_MESSAGE_LENGTH := by
  unfold find_split_at
  rw [findSome?_eq_none_of_all _ _ h]
  rfl

theorem cexC3_find_split : find_split_at cexC3 = MAX_MESSAGE_LENGTH := by
  apply find_split_at_eq_max
  intro sep hsep
  rw [show splitSeps = [sepNl2, sepNl1, sepPeriodSpace, sepSpace] from rfl,
    List.mem_cons, List.mem_cons, List.mem_cons, List.mem_singleton] at hsep
  rcases hsep with h | h | h | h <;> subst h
  · exact trySplitAt_eq_none_of_rfind_none _ _ cexC3_rfind_nl2
  · exact trySplitAt_eq_none_of_rfind_none _ _ cexC3_rfind_nl1
  · exact trySplitAt_eq_none_of_rfind_none _ _ cexC3_rfind_ps
  · exact trySplitAt_eq_none_of_le _ _ 8191 cexC3_rfind_space (by decide)

/-- C3 counterexample: in `cexC3` the only separator occurrence among all
four separators is the single space, whose rightmost (only) occurrence starts
exactly at index `MAX_MESSAGE_LENGTH / 2 = 8191`; the claim says the message
is split at that separator (first chunk `take 8192`), but `_split_message`
uses the hard limit: the first chunk is `take 16383`, a different chunk. -/
theorem split_point_half_boundary_cex :
    pyRfind cexC3 sepSpace MAX_MESSAGE_LENGTH = some (MAX_MESSAGE_LENGTH / 2)
    ∧ pyRfind cexC3 sepNl2 MAX_MESSAGE_LENGTH = none
    ∧ pyRfind cexC3 sepNl1 MAX_MESSAGE_LENGTH = none
    ∧ pyRfind cexC3 sepPeriodSpace MAX_MESSAGE_LENGTH = none
    ∧ (split_message cexC3).head? = some (cexC3.take MAX_MESSAGE_LENGTH)
    ∧ cexC3.take MAX_MESSAGE_LENGTH
        ≠ cexC3.take (MAX_MESSAGE_LENGTH / 2 + sepSpace.length) := by
  refine ⟨?_, cexC3_rfind_nl2, cexC3_rfind_nl1, cexC3_rfind_ps, ?_, ?_⟩
  · rw [show MAX_MESSAGE_LENGTH / 2 = 8191 from rfl]
    exact cexC3_rfind_space
  · rw [split_message_head cexC3 (by rw [cexC3_length]; decide), cexC3_find_split]
  · intro heq
    have hlt := congrArg List.length heq
    rw [List.length_take, List.length_take, cexC3_length] at hlt
    revert hlt
    decide

/-- C3 (amended): for an over-long message, a candidate split point is
accepted whenever a separator's rightmost occurrence before the limit starts
strictly past half the maximum length (`idx > MAX_MESSAGE_LENGTH // 2 =
8191`), in which case the first chunk ends at an accepted separator split
`idx + len(sep)`; when every separator occurrence starts at or before index
`MAX_MESSAGE_LENGTH // 2` — in particular when the only occurrence starts
exactly there — the hard limit `MAX_MESSAGE_LENGTH` is used instead. -/
theorem split_point_acceptance_threshold (content : List Char)
    (h : MAX_MESSAGE_LENGTH < content.length) :
    ((∃ sep ∈ splitSeps, ∃ idx, pyRfind content sep MAX_MESSAGE_LENGTH = some idx
        ∧ MAX_MESSAGE_LENGTH / 2 < idx) →
      ∃ sep ∈ splitSeps, ∃ idx, pyRfind content sep MAX_MESSAGE_LENGTH = some idx
        ∧ MAX_MESSAGE_LENGTH / 2 < idx
        ∧ find_split_at content = idx + sep.length
        ∧ (split_message content).head? = some (content.take (idx + sep.length)))
    ∧ ((∀ sep ∈ splitSeps, ∀ idx,
          pyRfind content sep MAX_MESSAGE_LENGTH = some idx →
          idx ≤ MAX_MESSAGE_LENGTH / 2) →
        find_split_at content = MAX_MESSAGE_LENGTH
        ∧ (split_message content).head? = some (content.take MAX_MESSAGE_LENGTH)) := by
  constructor
  · rintro ⟨sep, hmem, idx, hr, hh⟩
    have hts : trySplitAt content sep = some (idx + sep.length) := by
      unfold trySplitAt
      rw [hr]
      dsimp only
      rw [if_pos hh]
    have hfs : ∃ v, splitSeps.findSome? (trySplitAt content) = some v := by
      cases hx : splitSeps.findSome? (trySplitAt content) with
      | some v => exact ⟨v, rfl⟩
      | none =>
        exfalso
        have hn := findSome?_forall_none _ _ hx sep hmem
        rw [hts] at hn
        exact Option.noConfusion hn
    obtain ⟨v, hv⟩ := hfs
    obtain ⟨sep', hmem', htry'⟩ := findSome?_eq_some_of_mem _ _ _ hv
    unfold trySplitAt at htry'
    cases hr' : pyRfind content sep' MAX_MESSAGE_LENGTH with
    | none =>
      rw [hr'] at htry'
      exact absurd htry' (by simp)
    | some idx' =>
      rw [hr'] at htry'
      dsimp only at htry'
      by_cases hh' : MAX_MESSAGE_LENGTH / 2 < idx'
      · rw [if_pos hh'] at htry'
        injection htry' with hv'
        have hfsv : find_split_at content = idx' + sep'.length := by
          unfold find_split_at
          rw [hv, Option.getD_some, ← hv']
        refine ⟨sep', hmem', idx', hr', hh', hfsv, ?_⟩
        rw [split_message_head content h, hfsv]
      · rw [if_neg hh'] at htry'
        exact absurd htry' (by simp)
  · intro hall
    have hnone : splitSeps.findSome? (trySplitAt content) = none := by
      apply findSome?_eq_none_of_all
      intro sep hsep
      unfold trySplitAt
      cases hr : pyRfind content sep MAX_MESSAGE_LENGTH with
      | none => rfl
      | some idx =>
        dsimp only
        rw [if_neg (by have := hall sep hsep idx hr; omega)]
    have hfs : find_split_at content = MAX_MESSAGE_LENGTH := by
      unfold find_split_at
      rw [hnone]
      rfl
    exact ⟨hfs, by rw [split_message_head content h, hfs]⟩

theorem newline_rfind_nl2 :
    pyRfind (List.replicate 16384 '\n') sepNl2 MAX_MESSAGE_LENGTH = some 16381 := by
  unfold pyRfind
  rw [List.length_replicate]
  rw [if_pos (by decide : sepNl2.length ≤ min MAX_MESSAGE_LENGTH 16384)]
  rw [show min MAX_MESSAGE_LENGTH 16384 - sepNl2.length = 16381 from by decide]
  apply rfindDown_eq_some
  · exact Nat.le_refl _
  · rw [List.drop_replicate]
    rw [show (16384 - 16381 : Nat) = 3 from by decide]
    rfl
  · intro k hk1 hk2
    exact absurd hk2 (by omega)

/-- C3 witness: the amended theorem applied to the all-newline message of
length 16384, whose rightmost `"\n\n"` occurrence starts at index 16381,
strictly past half the maximum length. -/
theorem split_point_acceptance_threshold_witness :
    MAX_MESSAGE_LENGTH < (List.replicate 16384 '\n').length
    ∧ (∃ sep ∈ splitSeps, ∃ idx,
        pyRfind (List.replicate 16384 '\n') sep MAX_MESSAGE_LENGTH = some idx
        ∧ MAX_MESSAGE_LENGTH / 2 < idx
        ∧ find_split_at (List.replicate 16384 '\n') = idx + sep.length
        ∧ (split_message (List.replicate 16384 '\n')).head?
            = some ((List.replicate 16384 '\n').take (idx + sep.length))) := by
  have hlen : MAX_MESSAGE_LENGTH < (List.replicate 16384 '\n').length := by
    rw [List.length_replicate]
    decide
  exact ⟨hlen, (split_point_acceptance_threshold _ hlen).1
    ⟨sepNl2, by decide, 16381, newline_rfind_nl2, by decide⟩⟩

/- ------------------------------------------------------------------ -/
/- handle_message.py: send_response (lines 344-369)                    -/
/- ------------------------------------------------------------------ -/

/-- A parsed Mattermost `posted` event (`handle_message.py` lines 33-54);
`root_id` is the empty string when the message is not in a thread. -/
structure MattermostMessage where
  post_id : List Char
  channel_id : List Char
  team_id : List Char
  user_id : List Char
  username : List Char
  message : List Char
  root_id : List Char
  mentions : List (List Char)
deriving DecidableEq

/-- `MattermostMessage.is_thread` (`handle_message.py` lines 51-54):
`bool(self.root_id)`. -/
def MattermostMessage.is_thread (m : MattermostMessage) : Bool := m.root_id ≠ []

/-- One `create_post` call made by `send_response`: channel, chunk text and
the `root_id` argument (`none` mirrors passing `None`, which the code does
whenever the computed root id is falsy: `root_id if root_id else None`). -/
structure CreatedPost where
  channel_id : List Char
  message : List Char
  root_id : Option (List Char)
deriving DecidableEq

/-- The reply root computed by `send_response` (`handle_message.py` lines
353-362): the original thread root if the message is threaded, else the
original post id if the channel is thread-only, else empty. -/
def send_response_root (msg : MattermostMessage) (thread_only_mode : Bool) : List Char :=
  if msg.is_thread then msg.root_id
  else if thread_only_mode then msg.post_id
  else []

/-- Embedding of `send_response` (`handle_message.py` lines 344-369): split
the content and create one post per chunk, all with the same computed root. -/
def send_response (msg : MattermostMessage) (content : List Char)
    (thread_only_mode : Bool) : List CreatedPost :=
  (split_message content).map (fun chunk =>
    { channel_id := msg.channel_id, message := chunk,
      root_id := if send_response_root msg thread_only_mode ≠ []
        then some (send_response_root msg thread_only_mode) else none })

/-- The root-post id of a created post: Mattermost represents "not a reply"
by an empty `root_id` string, so a post created with `root_id=None` has
effective root `""`. -/
def CreatedPost.effectiveRoot (p : CreatedPost) : List Char := p.root_id.getD []

/- ------------------------------------------------------------------ -/
/- Claim C4                                                            -/
/- ------------------------------------------------------------------ -/

/-- C4: every reply chunk posted by `send_response` goes to the original
message's channel, and is placed as claimed: if the original has a non-empty
`root_id`, every created post's root is that `root_id`; else if
`thread_only_mode` is set, every created post's (effective) root is the
original post id; else every post is created with no root. -/
theorem send_response_thread_placement (msg : MattermostMessage)
    (content : List Char) (thread_only_mode : Bool) :
    ∀ p ∈ send_response msg content thread_only_mode,
      p.channel_id = msg.channel_id
      ∧ (msg.root_id ≠ [] → p.root_id = some msg.root_id)
      ∧ (msg.root_id = [] → thread_only_mode = true →
          p.effectiveRoot = msg.post_id)
      ∧ (msg.root_id = [] → thread_only_mode = false → p.root_id = none) := by
  intro p hp
  unfold send_response at hp
  rw [List.mem_map] at hp
  obtain ⟨chunk, _, hpe⟩ := hp
  subst hpe
  refine ⟨rfl, ?_, ?_, ?_⟩
  · intro hroot
    simp [send_response_root, MattermostMessage.is_thread, hroot]
  · intro hroot htom
    subst htom
    by_cases hpost : msg.post_id = []
    · simp [CreatedPost.effectiveRoot, send_response_root,
        MattermostMessage.is_thread, hroot, hpost]
    · simp [CreatedPost.effectiveRoot, send_response_root,
        MattermostMessage.is_thread, hroot, hpost]
  · intro hroot htom
    subst htom
    simp [send_response_root, MattermostMessage.is_thread, hroot]

/-- C4 witness: a threaded original message (root `"R"`) in a non-thread-only
channel yields a reply chunk rooted at `"R"`. -/
theorem send_response_thread_placement_witness :
    (⟨"C".toList, "hi".toList, some ("R".toList)⟩ : CreatedPost).root_id
      = some ((⟨"P".toList, "C".toList, "T".toList, "U".toList, "un".toList,
          "q".toList, "R".toList, []⟩ : MattermostMessage).root_id) :=
  (send_response_thread_placement
      ⟨"P".toList, "C".toList, "T".toList, "U".toList, "un".toList,
        "q".toList, "R".toList, []⟩ ("hi".toList) false
      ⟨"C".toList, "hi".toList, some ("R".toList)⟩ (by decide)).2.1 (by decide)

/- ------------------------------------------------------------------ -/
/- handle_message.py: _append_citations (lines 240-275)                -/
/- ------------------------------------------------------------------ -/

/-- One entry of `response.citation_info`. -/
structure CitationInfo where
  citation_number : Int
  document_id : List Char
deriving DecidableEq

/-- One entry of `response.top_documents`. -/
structure TopDocument where
  document_id : List Char
  semantic_identifier : List Char
  link : Option (List Char)
deriving DecidableEq

/-- The fields of `ChatFullResponse` consumed by `_append_citations`. -/
structure ChatFullResponse where
  citation_info : List CitationInfo
  top_documents : List TopDocument
deriving DecidableEq

/-- The `cited_docs` list built by `_append_citations` (`handle_message.py`
lines 245-262): for each citation, the first top document with the same
document id (Python `next(...)`); matched citations are recorded as
(number, semantic identifier or `"Source"`, link), unmatched ones dropped. -/
def citedDocsOf (resp : ChatFullResponse) :
    List (Int × List Char × Option (List Char)) :=
  resp.citation_info.filterMap (fun citation =>
    (resp.top_documents.find?
        (fun d => d.document_id = citation.document_id)).map
      (fun doc =>
        (citation.citation_number,
         if doc.semantic_identifier = [] then "Source".toList
           else doc.semantic_identifier,
         doc.link)))

/-- Insertion of one element into a list already sorted ascending by
citation number, after all entries with a smaller-or-equal number. -/
def insertCited (x : Int × List Char × Option (List Char)) :
    List (Int × List Char × Option (List Char)) →
      List (Int × List Char × Option (List Char))
  | [] => [x]
  | y :: ys => if y.1 ≤ x.1 then y :: insertCited x ys else x :: y :: ys

/-- `cited_docs.sort(key=lambda x: x[0])` (`handle_message.py` line 267):
stable ascending sort by citation number, modelled by stable insertion in
input order (extensionally equal to Python's stable sort). -/
def sortCited (l : List (Int × List Char × Option (List Char))) :
    List (Int × List Char × Option (List Char)) :=
  l.foldl (fun acc x => insertCited x acc) []

/-- One rendered citation line (`handle_message.py` lines 269-273):
`"{num}. [{name}]({link})\n"` when a link is present, else
`"{num}. {name}\n"`. -/
def renderCitation : Int × List Char × Option (List Char) → List Char
  | (num, name, some link) =>
      (toString num).toList ++ ". [".toList ++ name ++ "](".toList
        ++ link ++ ")".toList ++ "\n".toList
  | (num, name, none) =>
      (toString num).toList ++ ". ".toList ++ name ++ "\n".toList

/-- The `"\n\n**Sources:**\n"` block header (`handle_message.py` line 268). -/
def sourcesHeader : List Char := "\n\n**Sources:**\n".toList

/-- Embedding of `_append_citations` (`handle_message.py` lines 240-275):
return the answer unchanged when `citation_info` or `top_documents` is empty
or when no citation matches any document; otherwise append the header and
the first five matched citations sorted ascending by citation number. -/
def append_citations (answer : List Char) (resp : ChatFullResponse) : List Char :=
  if resp.citation_info = [] ∨ resp.top_documents = [] then answer
  else if citedDocsOf resp = [] then answer
  else answer ++ sourcesHeader
    ++ (((sortCited (citedDocsOf resp)).take 5).map renderCitation).flatten

/- ------------------------------------------------------------------ -/
/- Claim C8                                                            -/
/- ------------------------------------------------------------------ -/

theorem mem_insertCited (x y : Int × List Char × Option (List Char))
    (l : List (Int × List Char × Option (List Char))) :
    y ∈ insertCited x l ↔ y = x ∨ y ∈ l := by
  induction l with
  | nil => simp [insertCited]
  | cons a as ih =>
    simp only [insertCited]
    by_cases h : a.1 ≤ x.1
    · rw [if_pos h, List.mem_cons, ih, List.mem_cons]
      tauto
    · rw [if_neg h, List.mem_cons, List.mem_cons]

theorem pairwise_insertCited (x : Int × List Char × Option (List Char))
    (l : List (Int × List Char × Option (List Char)))
    (hl : l.Pairwise (fun a b => a.1 ≤ b.1)) :
    (insertCited x l).Pairwise (fun a b => a.1 ≤ b.1) := by
  induction l with
  | nil => simp [insertCited]
  | cons a as ih =>
    rw [List.pairwise_cons] at hl
    simp only [insertCited]
    by_cases h : a.1 ≤ x.1
    · rw [if_pos h, List.pairwise_cons]
      refine ⟨?_, ih hl.2⟩
      intro b hb
      rw [mem_insertCited] at hb
      rcases hb with hb | hb
      · rw [hb]
        exact h
      · exact hl.1 b hb
    · rw [if_neg h, List.pairwise_cons]
      refine ⟨?_, ?_⟩
      · intro b hb
        rw [List.mem_cons] at hb
        rcases hb with hb | hb
        · rw [hb]
          omega
        · have := hl.1 b hb
          omega
      · rw [List.pairwise_cons]
        exact ⟨hl.1, hl.2⟩

theorem pairwise_sortCited_aux (l acc : List (Int × List Char × Option (List Char)))
    (hacc : acc.Pairwise (fun a b => a.1 ≤ b.1)) :
    (l.foldl (fun acc x => insertCited x acc) acc).Pairwise
      (fun a b => a.1 ≤ b.1) := by
  induction l generalizing acc with
  | nil => exact hacc
  | cons a as ih => exact ih _ (pairwise_insertCited a acc hacc)

theorem pairwise_sortCited (l : List (Int × List Char × Option (List Char))) :
    (sortCited l).Pairwise (fun a b => a.1 ≤ b.1) :=
  pairwise_sortCited_aux l [] List.Pairwise.nil

theorem mem_sortCited_aux (l acc : List (Int × List Char × Option (List Char)))
    (x : Int × List Char × Option (List Char))
    (h : x ∈ l.foldl (fun acc y => insertCited y acc) acc) :
    x ∈ acc ∨ x ∈ l := by
  induction l generalizing acc with
  | nil => exact Or.inl h
  | cons a as ih =>
    rcases ih _ h with h1 | h1
    · rw [mem_insertCited] at h1
      rcases h1 with h1 | h1
      · exact Or.inr (by rw [h1]; exact List.mem_cons_self a as)
      · exact Or.inl h1
    · exact Or.inr (List.mem_cons_of_mem a h1)

/-- C8: `_append_citations` returns the answer unchanged when no citation's
document id matches any top document; in every other case it either returns
the answer unchanged or appends a block holding at most five entries, sorted
ascending by citation number regardless of the input order, each entry drawn
from a citation whose document id matches some top document; and on the
concrete citation numbers [2, 1] with matching source documents the rendered
block lists "1." before "2.". -/
theorem append_citations_spec :
    (∀ (answer : List Char) (resp : ChatFullResponse),
      (∀ c ∈ resp.citation_info, ∀ d ∈ resp.top_documents,
          c.document_id ≠ d.document_id) →
      append_citations answer resp = answer)
    ∧ (∀ (answer : List Char) (resp : ChatFullResponse),
        append_citations answer resp = answer
        ∨ ∃ entries, entries = (sortCited (citedDocsOf resp)).take 5
            ∧ append_citations answer resp
              = answer ++ sourcesHeader ++ (entries.map renderCitation).flatten
            ∧ entries.length ≤ 5
            ∧ entries.Pairwise (fun a b => a.1 ≤ b.1)
            ∧ ∀ e ∈ entries, ∃ c ∈ resp.citation_info, ∃ d ∈ resp.top_documents,
                e.1 = c.citation_number ∧ c.document_id = d.document_id)
    ∧ append_citations ("ans".toList)
        ⟨[⟨2, "d2".toList⟩, ⟨1, "d1".toList⟩],
         [⟨"d1".toList, "Doc One".toList, some ("u1".toList)⟩,
          ⟨"d2".toList, "Doc Two".toList, none⟩]⟩
      = "ans".toList ++ "\n\n**Sources:**\n1. [Doc One](u1)\n2. Doc Two\n".toList := by
  refine ⟨?_, ?_, by decide⟩
  · intro answer resp hnone
    have hcd : citedDocsOf resp = [] := by
      unfold citedDocsOf
      rw [List.filterMap_eq_nil_iff]
      intro c hc
      cases hf : resp.top_documents.find? (fun d => d.document_id = c.document_id) with
      | none => rfl
      | some doc =>
        exfalso
        have hd := List.find?_some hf
        rw [decide_eq_true_eq] at hd
        exact hnone c hc doc (List.mem_of_find?_eq_some hf) hd.symm
    unfold append_citations
    by_cases h0 : resp.citation_info = [] ∨ resp.top_documents = []
    · rw [if_pos h0]
    · rw [if_neg h0, if_pos hcd]
  · intro answer resp
    unfold append_citations
    by_cases h0 : resp.citation_info = [] ∨ resp.top_documents = []
    · rw [if_pos h0]
      exact Or.inl rfl
    · rw [if_neg h0]
      by_cases h1 : citedDocsOf resp = []
      · rw [if_pos h1]
        exact Or.inl rfl
      · rw [if_neg h1]
        refine Or.inr ⟨(sortCited (citedDocsOf resp)).take 5, rfl, rfl,
          List.length_take_le 5 _,
          List.Pairwise.sublist (List.take_sublist 5 _) (pairwise_sortCited _), ?_⟩
        intro e he
        have hmem : e ∈ sortCited (citedDocsOf resp) :=
          (List.take_sublist 5 _).subset he
        have hcd : e ∈ citedDocsOf resp := by
          rcases mem_sortCited_aux _ [] e hmem with h | h
          · exact absurd h (List.not_mem_nil e)
          · exact h
        unfold citedDocsOf at hcd
        rw [List.mem_filterMap] at hcd
        obtain ⟨c, hc, hfc⟩ := hcd
        cases hf : resp.top_documents.find? (fun d => d.document_id = c.document_id) with
        | none =>
          rw [hf] at hfc
          exact absurd hfc (by simp)
        | some doc =>
          rw [hf] at hfc
          have hd := List.find?_some hf
          rw [decide_eq_true_eq] at hd
          refine ⟨c, hc, doc, List.mem_of_find?_eq_some hf, ?_, hd.symm⟩
          rw [show (Option.map (fun doc =>
              (c.citation_number,
               if doc.semantic_identifier = [] then "Source".toList
                 else doc.semantic_identifier,
               doc.link)) (some doc)) = some (c.citation_number,
               if doc.semantic_identifier = [] then "Source".toList
                 else doc.semantic_identifier,
               doc.link) from rfl] at hfc
          injection hfc with hfc
          rw [← hfc]

/-- C8 witness: the no-match branch of the theorem applied at a concrete
response whose only citation matches no top document. -/
theorem append_citations_spec_witness :
    append_citations ("a".toList)
        ⟨[⟨1, "dx".toList⟩], [⟨"dy".toList, "N".toList, none⟩]⟩
      = "a".toList :=
  append_citations_spec.1 _ _ (by decide)
